import Mathlib

/-!
Sanyo MBC-200 driver glue logic

A shallow embedding of the handlers of `src/mame/drivers/mbc200.cpp`:
the keyboard latch (`keyboard_r`, `kbd_put`), the master/slave comm latch
(`pm_porta_w`, `p2_porta_r`), the floppy/beeper select (`pm_portb_w`), the
boot overlay (`machine_reset`) and the scanline renderer (`update_row`).

Conventions.
* `uint8_t` / `uint16_t` values are natural numbers; where the C++ code can
  leave the range of the type, the truncation is written explicitly
  (`% 256`, `% 65536`).  Handler arguments of type `u8` are natural numbers
  standing for a byte.
* Calls into other devices (scheduler, PPI, FDC, floppy drives, beeper,
  speaker) are recorded, in program order, in the `calls` log of the state.
* Memory regions are lists of bytes; an indexed read is `xs[i]?`.
-/

namespace MBC200

/-! ## Framework pieces used by the driver -/

/-- Modelled from the spec: the framework macro `BIT(x, n)` is not part of the
driver source; the spec describes the renderer as emitting the bits of a byte,
each bit selecting a palette entry, so `BIT x n` is bit `n` of `x` (0 or 1). -/
def BIT (x n : Nat) : Nat := (x >>> n) &&& 1

/-- The C library `memcpy(dst, src, n)` on non-overlapping byte regions: the
first `n` bytes of `dst` are replaced by the first `n` bytes of `src`. -/
def memcpy (dst src : List Nat) (n : Nat) : List Nat :=
  src.take n ++ dst.drop n

/-- The two floppy drives that can sit in the connectors `fdc:0` and `fdc:1`. -/
inductive FloppyUnit where
  | fdc0
  | fdc1
deriving DecidableEq, Repr

/-- Calls the driver makes into other devices. -/
inductive DevCall where
  /-- The call `machine().scheduler().synchronize()`. -/
  | synchronize
  /-- The call `m_speaker->level_w(v)`. -/
  | speaker_level_w (v : Nat)
  /-- The call `m_fdc->set_floppy(f)`; `none` is `nullptr`. -/
  | fdc_set_floppy (f : Option FloppyUnit)
  /-- The call `floppy->mon_w(v)` on drive `f`. -/
  | floppy_mon_w (f : FloppyUnit) (v : Nat)
  /-- The call `floppy->ss_w(v)` on drive `f`. -/
  | floppy_ss_w (f : FloppyUnit) (v : Nat)
  /-- The call `m_beep->set_state(v)`. -/
  | beep_set_state (v : Nat)
  /-- The call `m_ppi_m->pc6_w(v)`. -/
  | ppi_m_pc6_w (v : Nat)
deriving DecidableEq, Repr

/-- A floppy connector: `get_device()` yields the drive plugged into it, or
`nullptr` when the slot is empty. -/
structure floppy_connector where
  drive : FloppyUnit
  present : Bool
deriving DecidableEq, Repr

/-- The member `floppy_connector::get_device()`. -/
def floppy_connector.get_device (c : floppy_connector) : Option FloppyUnit :=
  if c.present then some c.drive else none

/-! ## Driver state -/

/-- The data members of `mbc200_state` that the handlers read or write,
together with the memory regions `maincpu` and `roms` and the log of device
calls. -/
structure mbc200_state where
  m_comm_latch : Nat
  m_term_data : Nat
  m_vram : List Nat
  maincpu : List Nat
  roms : List Nat
  m_floppy0 : floppy_connector
  m_floppy1 : floppy_connector
  calls : List DevCall
deriving DecidableEq, Repr

/-! ## Handlers -/

/-- The handler `WRITE8_MEMBER( mbc200_state::p1_portc_w )`. -/
def p1_portc_w (s : mbc200_state) (data : Nat) : mbc200_state :=
  { s with calls := s.calls ++ [DevCall.speaker_level_w (BIT data 4)] }

/-- The handler `WRITE8_MEMBER( mbc200_state::pm_porta_w )`. -/
def pm_porta_w (s : mbc200_state) (data : Nat) : mbc200_state :=
  let s1 := { s with calls := s.calls ++ [DevCall.synchronize] }
  { s1 with m_comm_latch := data }

/-- The handler `WRITE8_MEMBER( mbc200_state::pm_portb_w )`. -/
def pm_portb_w (s : mbc200_state) (data : Nat) : mbc200_state :=
  let floppy : Option FloppyUnit :=
    match data &&& 0x01 with
    | 0 => s.m_floppy0.get_device
    | 1 => s.m_floppy1.get_device
    | _ => none
  let s1 := { s with calls := s.calls ++ [DevCall.fdc_set_floppy floppy] }
  let s2 :=
    match floppy with
    | some f =>
      { s1 with calls := s1.calls ++
          [DevCall.floppy_mon_w f 0, DevCall.floppy_ss_w f (BIT data 7)] }
    | none => s1
  { s2 with calls := s2.calls ++ [DevCall.beep_set_state (BIT data 1)] }

/-- The handler `READ8_MEMBER(mbc200_state::p2_porta_r)`: the returned byte
and the state afterwards. -/
def p2_porta_r (s : mbc200_state) : Nat × mbc200_state :=
  let s1 := { s with calls := s.calls ++ [DevCall.synchronize] }
  let tmp := s1.m_comm_latch
  let s2 := { s1 with m_comm_latch := 0 }
  let s3 := { s2 with calls := s2.calls ++ [DevCall.ppi_m_pc6_w 0] }
  (tmp, s3)

/-- The handler `READ8_MEMBER( mbc200_state::keyboard_r )`: the returned byte
and the state afterwards. -/
def keyboard_r (s : mbc200_state) (offset : Nat) : Nat × mbc200_state :=
  let data := 0
  if offset ≠ 0 then
    if s.m_term_data ≠ 0 then
      let data := 2
      if s.m_term_data < 0x20 then
        ((data ||| 8) % 256, { s with m_term_data := (s.m_term_data ||| 0x40) % 256 })
      else
        (data, s)
    else
      (data, s)
  else
    (s.m_term_data, { s with m_term_data := 0 })

/-- The keyboard callback `mbc200_state::kbd_put`. -/
def kbd_put (s : mbc200_state) (data : Nat) : mbc200_state :=
  match data with
  | 0x0e => { s with m_term_data := 0xe2 }
  | 0x0f => { s with m_term_data := 0xe3 }
  | 0x08 => { s with m_term_data := 0xe4 }
  | 0x09 => { s with m_term_data := 0xe5 }
  | 0x0a => { s with m_term_data := 0xe6 }
  | 0x0d => { s with m_term_data := 0xe7 }
  | 0x1b => { s with m_term_data := 0xe8 }
  | _ => { s with m_term_data := data }

/-- The member `mbc200_state::machine_start` (empty body). -/
def machine_start (s : mbc200_state) : mbc200_state := s

/-- The member `mbc200_state::machine_reset`. -/
def machine_reset (s : mbc200_state) : mbc200_state :=
  { s with maincpu := memcpy s.maincpu s.roms 0x1000 }

/-! ## Scanline renderer -/

/-- Ways in which the embedded renderer can fail to produce a scanline. -/
inductive Fault where
  /-- The loop did not finish within the given number of iterations. -/
  | out_of_fuel
  /-- A video memory read fell outside the shared RAM. -/
  | vram_out_of_range
deriving DecidableEq, Repr

/-- The output row `&bitmap.pix32(y)` with the write cursor `p`, counted in
pixels from the start of the row. -/
structure Scanline where
  pix : Nat → Nat
  p : Nat

/-- The statement `*p++ = v`. -/
def Scanline.put (s : Scanline) (v : Nat) : Scanline :=
  { pix := fun j => if j = s.p then v else s.pix j, p := s.p + 1 }

/-- The value of `mem & 0x7fff` after `mem = (ma+x)*4+ra` with `mem` a
`uint16_t`. -/
def vram_index (ma ra x : Nat) : Nat :=
  (((ma + x) * 4 + ra) % 65536) &&& 0x7fff

/-- The loop of `update_row`, from column `x` on, with `x` a `uint16_t`. -/
def update_row_loop (vram : List Nat) (palette : Nat → Nat) (ma ra x_count : Nat) :
    Nat → Nat → Scanline → Except Fault Scanline
  | 0, _, _ => Except.error Fault.out_of_fuel
  | fuel + 1, x, s =>
    if x < x_count then
      match vram[vram_index ma ra x]? with
      | none => Except.error Fault.vram_out_of_range
      | some gfx =>
        let s := s.put (palette (BIT gfx 7))
        let s := s.put (palette (BIT gfx 6))
        let s := s.put (palette (BIT gfx 5))
        let s := s.put (palette (BIT gfx 4))
        let s := s.put (palette (BIT gfx 3))
        let s := s.put (palette (BIT gfx 2))
        let s := s.put (palette (BIT gfx 1))
        let s := s.put (palette (BIT gfx 0))
        update_row_loop vram palette ma ra x_count fuel ((x + 1) % 65536) s
    else
      Except.ok s

/-- The row callback `MC6845_UPDATE_ROW( mbc200_state::update_row )`: `row` is
pixel row `y` of the bitmap, `palette` the raw pen list, and `ma`, `ra`,
`x_count` the arguments handed over by the CRTC. -/
def update_row (vram : List Nat) (palette : Nat → Nat) (ma ra x_count : Nat)
    (fuel : Nat) (row : Nat → Nat) : Except Fault Scanline :=
  update_row_loop vram palette ma ra x_count fuel 0 { pix := row, p := 0 }

/-! ## Construction -/

/-- Modelled from the spec: the framework allocation of the driver object is
not part of the driver source, and the constructor's initialiser list names
only the device finders.  The spec gives CommLatch and PendingKeyCode the
default 0 ("reset to 0 on construction"), so the storage handed to the
constructor holds 0 in both members. -/
def allocate (vram maincpu roms : List Nat) (f0 f1 : Bool) : mbc200_state :=
  { m_comm_latch := 0
    m_term_data := 0
    m_vram := vram
    maincpu := maincpu
    roms := roms
    m_floppy0 := { drive := FloppyUnit.fdc0, present := f0 }
    m_floppy1 := { drive := FloppyUnit.fdc1, present := f1 }
    calls := [] }

/-- The constructor `mbc200_state::mbc200_state`: it binds the device finders
and assigns neither `m_comm_latch` nor `m_term_data`. -/
def mbc200_state.construct (storage : mbc200_state) : mbc200_state := storage

/-- A machine instance brought up to the point where the CPUs start:
allocation, constructor, `machine_start`, `machine_reset`. -/
def power_on (vram maincpu roms : List Nat) (f0 f1 : Bool) : mbc200_state :=
  machine_reset (machine_start (mbc200_state.construct (allocate vram maincpu roms f0 f1)))

/-! ## Specification-side definitions -/

/-- The keyboard translation table as the specification lists it: seven
incoming codes are remapped, every other code is stored unchanged. -/
def translation_table (c : Nat) : Nat :=
  if c = 0x0E then 0xE2
  else if c = 0x0F then 0xE3
  else if c = 0x08 then 0xE4
  else if c = 0x09 then 0xE5
  else if c = 0x0A then 0xE6
  else if c = 0x0D then 0xE7
  else if c = 0x1B then 0xE8
  else c

/-- The master writing a sequence of bytes to the comm latch, in order, with
no slave read in between. -/
def master_writes (s : mbc200_state) (ws : List Nat) : mbc200_state :=
  ws.foldl pm_porta_w s

/-- The device calls `pm_portb_w` makes for control byte `d` when the selected
connector is `c`. -/
def select_calls (c : floppy_connector) (d : Nat) : List DevCall :=
  [DevCall.fdc_set_floppy c.get_device] ++
  (match c.get_device with
   | some f => [DevCall.floppy_mon_w f 0, DevCall.floppy_ss_w f (BIT d 7)]
   | none => []) ++
  [DevCall.beep_set_state (BIT d 1)]

/-! ## Concrete inputs -/

/-- A machine state with a control code pending, a byte in the comm latch and
both drives plugged in. -/
def demo_state : mbc200_state :=
  { m_comm_latch := 0x55
    m_term_data := 0x03
    m_vram := List.replicate 0x8000 0xA5
    maincpu := List.replicate 0x1000 0xFF
    roms := List.replicate 0x1000 0xC3
    m_floppy0 := { drive := FloppyUnit.fdc0, present := true }
    m_floppy1 := { drive := FloppyUnit.fdc1, present := true }
    calls := [] }

/-- The monochrome palette: pen 0 is black, pen 1 is white. -/
def mono_palette (pen : Nat) : Nat :=
  if pen = 0 then 0x000000 else 0xFFFFFF

/-- A blank bitmap row. -/
def blank_row : Nat → Nat := fun _ => 0

/-! ## Helper lemmas -/

theorem or_0x40_lt_256 (t : Nat) (h : t < 0x20) : t ||| 0x40 < 256 :=
  Nat.or_lt_two_pow (n := 8) (by omega) (by decide)

theorem master_writes_concat (s : mbc200_state) (ws : List Nat) (b : Nat) :
    master_writes s (ws ++ [b]) = pm_porta_w (master_writes s ws) b := by
  simp [master_writes, List.foldl_append]

theorem master_writes_latch (s : mbc200_state) (ws : List Nat) (h : ws ≠ []) :
    (master_writes s ws).m_comm_latch = ws.getLast h := by
  rcases List.eq_nil_or_concat ws with hnil | ⟨L, b, hb⟩
  · exact absurd hnil h
  · subst hb
    simp [master_writes_concat, pm_porta_w]

theorem master_writes_calls (s : mbc200_state) (ws : List Nat) :
    (master_writes s ws).calls = s.calls ++ List.replicate ws.length DevCall.synchronize := by
  induction ws generalizing s with
  | nil => simp [master_writes]
  | cons w ws ih =>
    have h := ih (pm_porta_w s w)
    simp only [master_writes, List.foldl_cons] at h ⊢
    rw [h]
    simp [pm_porta_w, List.replicate_succ]

theorem master_writes_term_data (s : mbc200_state) (ws : List Nat) :
    (master_writes s ws).m_term_data = s.m_term_data := by
  induction ws generalizing s with
  | nil => simp [master_writes]
  | cons w ws ih =>
    have h := ih (pm_porta_w s w)
    simp only [master_writes, List.foldl_cons] at h ⊢
    rw [h]
    simp [pm_porta_w]

theorem vram_index_lt (ma ra x : Nat) : vram_index ma ra x < 0x8000 :=
  Nat.and_lt_two_pow _ (n := 15) (by decide)

theorem vram_read (vram : List Nat) (hv : vram.length = 0x8000) (ma ra x : Nat) :
    vram[vram_index ma ra x]? = some (vram.getD (vram_index ma ra x) 0) := by
  have h : vram_index ma ra x < vram.length := by
    rw [hv]
    exact vram_index_lt ma ra x
  simp [List.getD, List.getElem?_eq_getElem h]

theorem BIT_eq_testBit (g k : Nat) : BIT g k = if g.testBit k then 1 else 0 := by
  simp only [BIT, Nat.and_one_is_mod, Nat.testBit_to_div_mod, Nat.shiftRight_eq_div_pow]
  rcases Nat.mod_two_eq_zero_or_one (g / 2 ^ k) with h | h <;> simp [h]

/-- Eight consecutive stores advance the cursor by eight pixels. -/
theorem put8_p (s : Scanline) (a0 a1 a2 a3 a4 a5 a6 a7 : Nat) :
    ((((((((s.put a0).put a1).put a2).put a3).put a4).put a5).put a6).put a7).p = s.p + 8 := by
  simp [Scanline.put]

/-- Eight consecutive stores leave every pixel outside the eight cells alone. -/
theorem put8_pix_other (s : Scanline) (a0 a1 a2 a3 a4 a5 a6 a7 j : Nat)
    (hj : j < s.p ∨ s.p + 8 ≤ j) :
    ((((((((s.put a0).put a1).put a2).put a3).put a4).put a5).put a6).put a7).pix j
      = s.pix j := by
  have h0 : j ≠ s.p := by omega
  have h1 : j ≠ s.p + 1 := by omega
  have h2 : j ≠ s.p + 1 + 1 := by omega
  have h3 : j ≠ s.p + 1 + 1 + 1 := by omega
  have h4 : j ≠ s.p + 1 + 1 + 1 + 1 := by omega
  have h5 : j ≠ s.p + 1 + 1 + 1 + 1 + 1 := by omega
  have h6 : j ≠ s.p + 1 + 1 + 1 + 1 + 1 + 1 := by omega
  have h7 : j ≠ s.p + 1 + 1 + 1 + 1 + 1 + 1 + 1 := by omega
  simp only [Scanline.put, h0, h1, h2, h3, h4, h5, h6, h7, if_false]

/-- Eight consecutive stores of the bits 7..0 of `g` put bit `7 - i` in cell `i`. -/
theorem put8_pix_bit (s : Scanline) (palette : Nat → Nat) (g i : Nat) (hi : i < 8) :
    ((((((((s.put (palette (BIT g 7))).put (palette (BIT g 6))).put (palette (BIT g 5))).put
      (palette (BIT g 4))).put (palette (BIT g 3))).put (palette (BIT g 2))).put
      (palette (BIT g 1))).put (palette (BIT g 0))).pix (s.p + i)
      = palette (BIT g (7 - i)) := by
  interval_cases i <;> simp only [Scanline.put] <;> split_ifs <;>
    first | rfl | (exfalso; omega)

/-- The renderer loop with `n` columns left to draw: it finishes when given
more than `n` iterations, advances the cursor by `8 * n`, stores the bits of
the `n` bytes and touches nothing else. -/
theorem update_row_loop_spec (vram : List Nat) (hv : vram.length = 0x8000)
    (palette : Nat → Nat) (ma ra x_count : Nat) (hx : x_count < 65536) :
    ∀ (n x : Nat) (s : Scanline) (fuel : Nat), x + n = x_count → n < fuel →
      ∃ s', update_row_loop vram palette ma ra x_count fuel x s = Except.ok s' ∧
        s'.p = s.p + 8 * n ∧
        (∀ j, j < s.p ∨ s.p + 8 * n ≤ j → s'.pix j = s.pix j) ∧
        (∀ k, k < n → ∀ i, i < 8 →
          s'.pix (s.p + 8 * k + i)
            = palette (BIT (vram.getD (vram_index ma ra (x + k)) 0) (7 - i))) := by
  intro n
  induction n with
  | zero =>
    intro x s fuel hxn hf
    obtain ⟨f, rfl⟩ : ∃ f, fuel = f + 1 := ⟨fuel - 1, by omega⟩
    have hnot : ¬ x < x_count := by omega
    refine ⟨s, ?_, by simp, fun j _ => rfl, fun k hk => absurd hk (by omega)⟩
    simp [update_row_loop, hnot]
  | succ n ih =>
    intro x s fuel hxn hf
    obtain ⟨f, rfl⟩ : ∃ f, fuel = f + 1 := ⟨fuel - 1, by omega⟩
    have hlt : x < x_count := by omega
    have hwrap : (x + 1) % 65536 = x + 1 := Nat.mod_eq_of_lt (by omega)
    obtain ⟨s', hrun, hp, hother, hbits⟩ :=
      ih (x + 1)
        ((((((((s.put (palette (BIT (vram.getD (vram_index ma ra x) 0) 7))).put
          (palette (BIT (vram.getD (vram_index ma ra x) 0) 6))).put
          (palette (BIT (vram.getD (vram_index ma ra x) 0) 5))).put
          (palette (BIT (vram.getD (vram_index ma ra x) 0) 4))).put
          (palette (BIT (vram.getD (vram_index ma ra x) 0) 3))).put
          (palette (BIT (vram.getD (vram_index ma ra x) 0) 2))).put
          (palette (BIT (vram.getD (vram_index ma ra x) 0) 1))).put
          (palette (BIT (vram.getD (vram_index ma ra x) 0) 0)))
        f (by omega) (by omega)
    rw [put8_p] at hp hother hbits
    refine ⟨s', ?_, by omega, ?_, ?_⟩
    · simp only [update_row_loop, hlt, if_true, vram_read vram hv, hwrap]
      exact hrun
    · intro j hj
      rw [hother j (by omega)]
      exact put8_pix_other s _ _ _ _ _ _ _ _ j (by omega)
    · intro k hk i hi
      cases k with
      | zero =>
        rw [hother (s.p + 8 * 0 + i) (by omega)]
        simpa using put8_pix_bit s palette (vram.getD (vram_index ma ra x) 0) i hi
      | succ k =>
        have h := hbits k (by omega) i hi
        have e1 : s.p + 8 * (k + 1) + i = s.p + 8 + 8 * k + i := by omega
        have e2 : x + (k + 1) = x + 1 + k := by omega
        rw [e1, e2]
        exact h

/-- The renderer loop never reports a video memory read out of range when the
video memory is 32 KiB long. -/
theorem update_row_loop_no_fault (vram : List Nat) (hv : vram.length = 0x8000)
    (palette : Nat → Nat) (ma ra x_count : Nat) :
    ∀ (fuel x : Nat) (s : Scanline),
      update_row_loop vram palette ma ra x_count fuel x s
        ≠ Except.error Fault.vram_out_of_range := by
  intro fuel
  induction fuel with
  | zero =>
    intro x s
    simp [update_row_loop]
  | succ f ih =>
    intro x s
    by_cases hlt : x < x_count
    · simp only [update_row_loop, hlt, if_true, vram_read vram hv]
      exact ih _ _
    · simp [update_row_loop, hlt]

/-! ## Keyboard latch -/

/-- C2: a read of the keyboard status register (offset 1) returns 0 and leaves
the state alone when no code is pending, returns 2 and leaves the state alone
when the pending code is at least 0x20, and otherwise returns 0x0A and stores
the pending code with 0x40 ORed into it. -/
theorem keyboard_r_status (s : mbc200_state) :
    keyboard_r s 1 =
      if s.m_term_data = 0 then (0, s)
      else if 0x20 ≤ s.m_term_data then (2, s)
      else (0x0A, { s with m_term_data := s.m_term_data ||| 0x40 }) := by
  unfold keyboard_r
  by_cases h0 : s.m_term_data = 0
  · simp [h0]
  · by_cases h1 : 0x20 ≤ s.m_term_data
    · have h2 : ¬ s.m_term_data < 0x20 := by omega
      simp [h0, h1, h2]
    · have h2 : s.m_term_data < 0x20 := by omega
      have h3 := Nat.mod_eq_of_lt (or_0x40_lt_256 s.m_term_data h2)
      simp [h0, h1, h2, h3]

/-- C3 as stated fails: the control code 0x0D is below 0x20, yet after
`kbd_put 0x0D` the status read returns 2, not 0x0A. -/
theorem kbd_put_ctrl_status_counterexample :
    (0x0D : Nat) < 0x20 ∧ (keyboard_r (kbd_put demo_state 0x0D) 1).1 = 2 ∧
      (keyboard_r (kbd_put demo_state 0x0D) 1).1 ≠ 0x0A := by
  decide

/-- C3 (amended): for a code `c < 0x20` delivered through `kbd_put`, the next
status read returns 0x0A and leaves `c ||| 0x40` stored (bit 6 set) exactly
when `c` is non-zero and not one of the seven remapped codes; for a remapped
code it returns 2 and the stored translation (which has bit 6 set) is kept;
for `c = 0` it returns 0 and nothing is pending. -/
theorem kbd_put_then_status (s : mbc200_state) (c : Nat) (hc : c < 0x20) :
    if c = 0 then
      (keyboard_r (kbd_put s c) 1).1 = 0 ∧
      (keyboard_r (kbd_put s c) 1).2.m_term_data = 0
    else if c ∈ [0x08, 0x09, 0x0A, 0x0D, 0x0E, 0x0F, 0x1B] then
      (keyboard_r (kbd_put s c) 1).1 = 2 ∧
      (keyboard_r (kbd_put s c) 1).2.m_term_data = translation_table c ∧
      (keyboard_r (kbd_put s c) 1).2.m_term_data &&& 0x40 = 0x40
    else
      (keyboard_r (kbd_put s c) 1).1 = 0x0A ∧
      (keyboard_r (kbd_put s c) 1).2.m_term_data = c ||| 0x40 ∧
      (keyboard_r (kbd_put s c) 1).2.m_term_data &&& 0x40 = 0x40 := by
  interval_cases c <;> simp [kbd_put, keyboard_r, translation_table] <;> decide

/-- Witness for C3 (amended) at the control code 0x03. -/
theorem kbd_put_then_status_witness :
    (keyboard_r (kbd_put demo_state 0x03) 1).1 = 0x0A ∧
    (keyboard_r (kbd_put demo_state 0x03) 1).2.m_term_data = 0x43 ∧
    (keyboard_r (kbd_put demo_state 0x03) 1).2.m_term_data &&& 0x40 = 0x40 := by
  have h := kbd_put_then_status demo_state 0x03 (by decide)
  simpa using h

/-- C4: a read of the keyboard data register (offset 0) returns the pending
code and clears it, so that a status read made right afterwards returns 0. -/
theorem keyboard_r_data (s : mbc200_state) :
    (keyboard_r s 0).1 = s.m_term_data ∧
    (keyboard_r s 0).2 = { s with m_term_data := 0 } ∧
    (keyboard_r (keyboard_r s 0).2 1).1 = 0 ∧
    (keyboard_r (keyboard_r s 0).2 1).2.m_term_data = 0 := by
  simp [keyboard_r]

/-- C5: after `kbd_put c` the pending code is the translation of `c` by the
specification table, whatever was pending before, and nothing else in the
state changes; 0x0D is stored as 0xE7 and 0x41 as 0x41. -/
theorem kbd_put_translates (s : mbc200_state) (c : Nat) :
    kbd_put s c = { s with m_term_data := translation_table c } ∧
    (kbd_put s c).m_term_data = translation_table c ∧
    (kbd_put s 0x0E).m_term_data = 0xE2 ∧
    (kbd_put s 0x0F).m_term_data = 0xE3 ∧
    (kbd_put s 0x08).m_term_data = 0xE4 ∧
    (kbd_put s 0x09).m_term_data = 0xE5 ∧
    (kbd_put s 0x0A).m_term_data = 0xE6 ∧
    (kbd_put s 0x0D).m_term_data = 0xE7 ∧
    (kbd_put s 0x1B).m_term_data = 0xE8 ∧
    (kbd_put s 0x41).m_term_data = 0x41 ∧
    (c ∉ [0x08, 0x09, 0x0A, 0x0D, 0x0E, 0x0F, 0x1B] → (kbd_put s c).m_term_data = c) := by
  have key : kbd_put s c = { s with m_term_data := translation_table c } := by
    unfold kbd_put
    split <;> simp_all [translation_table]
  refine ⟨key, by rw [key], rfl, rfl, rfl, rfl, rfl, rfl, rfl, rfl, ?_⟩
  intro hc
  rw [key]
  simp only [List.mem_cons, List.mem_singleton, List.not_mem_nil, or_false, not_or] at hc
  simp [translation_table, hc]

/-! ## Master/slave comm latch -/

/-- C6: after any non-empty sequence of master writes to the comm latch with
no slave read in between, the slave read returns the last byte written, leaves
the latch at 0 and calls `pc6_w(0)` on the master PPI (the only call besides
the scheduler resynchronisations); a further read with no write in between
returns 0. -/
theorem comm_latch_last_write_wins (s : mbc200_state) (ws : List Nat) (h : ws ≠ []) :
    (p2_porta_r (master_writes s ws)).1 = ws.getLast h ∧
    (p2_porta_r (master_writes s ws)).2.m_comm_latch = 0 ∧
    (p2_porta_r (master_writes s ws)).2.calls =
      (master_writes s ws).calls ++ [DevCall.synchronize, DevCall.ppi_m_pc6_w 0] ∧
    (master_writes s ws).calls =
      s.calls ++ List.replicate ws.length DevCall.synchronize ∧
    (p2_porta_r (p2_porta_r (master_writes s ws)).2).1 = 0 := by
  refine ⟨?_, ?_, ?_, master_writes_calls s ws, ?_⟩
  · simpa [p2_porta_r] using master_writes_latch s ws h
  · simp [p2_porta_r]
  · simp [p2_porta_r]
  · simp [p2_porta_r]

/-- Witness for C6: the master writes 0x11, 0x22, 0x33 and the slave then
reads 0x33. -/
theorem comm_latch_last_write_wins_witness :
    (p2_porta_r (master_writes demo_state [0x11, 0x22, 0x33])).1 = 0x33 ∧
    (p2_porta_r (master_writes demo_state [0x11, 0x22, 0x33])).2.m_comm_latch = 0 ∧
    (p2_porta_r (p2_porta_r (master_writes demo_state [0x11, 0x22, 0x33])).2).1 = 0 := by
  have h := comm_latch_last_write_wins demo_state [0x11, 0x22, 0x33] (by simp)
  exact ⟨by simpa using h.1, h.2.1, h.2.2.2.2⟩

/-! ## Floppy and beeper select -/

/-- C7: for every control byte `d`, `pm_portb_w` hands the floppy controller
the drive of connector 0 when bit 0 of `d` is 0 and of connector 1 when it is
1; when that connector holds a drive it writes `mon_w(0)` and `ss_w(bit 7)` to
that drive and to no other; it then sets the beeper state to bit 1 of `d`.
These are all the calls it makes and no data member changes.  For `d = 0x81`
this is connector 1, side 1, motor on, beeper state 0. -/
theorem pm_portb_w_select (s : mbc200_state) (d : Nat) :
    pm_portb_w s d =
      { s with calls := s.calls ++
          select_calls (if BIT d 0 = 0 then s.m_floppy0 else s.m_floppy1) d } ∧
    (∀ f, s.m_floppy1.get_device = some f →
      (pm_portb_w s 0x81).calls = s.calls ++
        [DevCall.fdc_set_floppy (some f), DevCall.floppy_mon_w f 0,
         DevCall.floppy_ss_w f 1, DevCall.beep_set_state 0]) ∧
    (s.m_floppy1.get_device = none →
      (pm_portb_w s 0x81).calls = s.calls ++
        [DevCall.fdc_set_floppy none, DevCall.beep_set_state 0]) := by
  refine ⟨?_, ?_, ?_⟩
  · have hmod : d &&& 1 = d % 2 := Nat.and_one_is_mod d
    have hbit : BIT d 0 = d % 2 := by simp [BIT, Nat.and_one_is_mod]
    rcases Nat.mod_two_eq_zero_or_one d with h0 | h1
    · simp only [pm_portb_w, select_calls, hbit, hmod, h0]
      cases hg : s.m_floppy0.get_device <;> simp [hg]
    · simp only [pm_portb_w, select_calls, hbit, hmod, h1]
      cases hg : s.m_floppy1.get_device <;> simp [hg]
  · intro f hf
    have e7 : BIT 0x81 7 = 1 := by decide
    have e1 : BIT 0x81 1 = 0 := by decide
    have e0 : (0x81 : Nat) &&& 1 = 1 := by decide
    simp [pm_portb_w, hf, e7, e1, e0]
  · intro hf
    have e1 : BIT 0x81 1 = 0 := by decide
    have e0 : (0x81 : Nat) &&& 1 = 1 := by decide
    simp [pm_portb_w, hf, e1, e0]

/-- Witness for C7 at `d = 0x81` with both drives plugged in: unit 1 is
selected, its motor line is written with 0 and its side with 1, and the beeper
state is 0. -/
theorem pm_portb_w_select_witness :
    (pm_portb_w demo_state 0x81).calls =
      [DevCall.fdc_set_floppy (some FloppyUnit.fdc1), DevCall.floppy_mon_w FloppyUnit.fdc1 0,
       DevCall.floppy_ss_w FloppyUnit.fdc1 1, DevCall.beep_set_state 0] :=
  (pm_portb_w_select demo_state 0x81).2.1 FloppyUnit.fdc1 rfl

/-! ## Boot overlay -/

/-- C8: with a 4 KiB `roms` region and a 4 KiB `maincpu` region,
`machine_reset` leaves the `maincpu` region 4 KiB long with every byte equal
to the byte of the ROM image at the same offset, and leaves the ROM image
unchanged. -/
theorem machine_reset_overlay (s : mbc200_state)
    (hr : s.roms.length = 0x1000) (hm : s.maincpu.length = 0x1000) :
    (machine_reset s).maincpu.length = 0x1000 ∧
    (∀ i, i < 0x1000 → (machine_reset s).maincpu[i]? = s.roms[i]?) ∧
    (∀ i, i < 0x1000 → ∃ b, (machine_reset s).maincpu[i]? = some b ∧ s.roms[i]? = some b) ∧
    (machine_reset s).roms = s.roms := by
  have hd : s.maincpu.drop 0x1000 = [] := by
    apply List.drop_eq_nil_of_le
    omega
  have ht : s.roms.take 0x1000 = s.roms := by
    apply List.take_of_length_le
    omega
  have hmain : (machine_reset s).maincpu = s.roms := by
    simp [machine_reset, memcpy, hd, ht]
  refine ⟨by rw [hmain, hr], fun i _ => by rw [hmain], ?_, rfl⟩
  intro i hi
  have hlt : i < s.roms.length := by omega
  exact ⟨s.roms[i], by rw [hmain]; exact List.getElem?_eq_getElem hlt,
    List.getElem?_eq_getElem hlt⟩

/-- Witness for C8: a `maincpu` region erased to 0xFF and a ROM image filled
with 0xC3. -/
theorem machine_reset_overlay_witness :
    (machine_reset demo_state).maincpu.length = 0x1000 ∧
    (∀ i, i < 0x1000 → (machine_reset demo_state).maincpu[i]? = demo_state.roms[i]?) ∧
    (machine_reset demo_state).roms = demo_state.roms := by
  have h := machine_reset_overlay demo_state
    (List.length_replicate 0x1000 0xC3) (List.length_replicate 0x1000 0xFF)
  exact ⟨h.1, h.2.1, h.2.2.2⟩

/-! ## Construction -/

/-- C9: in a newly constructed machine (allocation, constructor,
`machine_start`, `machine_reset`) the comm latch and the pending key code are
both 0, the first keyboard status read returns 0 and the first slave read of
the comm latch returns 0.  The constructor, `machine_start` and
`machine_reset` themselves leave both members as the allocation handed them
over. -/
theorem power_on_latches_zero (vram maincpu roms : List Nat) (f0 f1 : Bool) :
    (power_on vram maincpu roms f0 f1).m_comm_latch = 0 ∧
    (power_on vram maincpu roms f0 f1).m_term_data = 0 ∧
    (keyboard_r (power_on vram maincpu roms f0 f1) 1).1 = 0 ∧
    (p2_porta_r (power_on vram maincpu roms f0 f1)).1 = 0 ∧
    (∀ storage : mbc200_state,
      (machine_reset (machine_start storage.construct)).m_comm_latch = storage.m_comm_latch ∧
      (machine_reset (machine_start storage.construct)).m_term_data = storage.m_term_data) := by
  refine ⟨?_, ?_, ?_, ?_, fun storage => ⟨rfl, rfl⟩⟩ <;>
    simp [power_on, machine_reset, machine_start, mbc200_state.construct, allocate,
      keyboard_r, p2_porta_r]

/-! ## Scanline renderer -/

/-- C1: with 32 KiB of video memory, `update_row` finishes (given more loop
iterations than `x_count`), leaves the write cursor `8 * x_count` pixels into
the row and every pixel from there on untouched, and for each cell
`x < x_count` and each `i < 8` the pixel at `8 * x + i` is the palette entry
selected by bit `7 - i` of the video byte at index
`(((ma + x) * 4 + ra) mod 2^16) & 0x7FFF`: entry 1 when the bit is set, entry 0
when it is clear.  The bound on `x_count` covers the `uint8_t` argument of the
CRTC row callback. -/
theorem update_row_pixels (vram : List Nat) (palette : Nat → Nat)
    (ma ra x_count fuel : Nat) (row : Nat → Nat)
    (hv : vram.length = 0x8000) (hx : x_count < 65536) (hf : x_count < fuel) :
    ∃ s', update_row vram palette ma ra x_count fuel row = Except.ok s' ∧
      s'.p = 8 * x_count ∧
      (∀ j, 8 * x_count ≤ j → s'.pix j = row j) ∧
      (∀ x, x < x_count → ∀ i, i < 8 →
        ∃ gfx, vram[(((ma + x) * 4 + ra) % 65536) &&& 0x7FFF]? = some gfx ∧
          s'.pix (8 * x + i) = palette ((gfx >>> (7 - i)) &&& 1) ∧
          s'.pix (8 * x + i) = if gfx.testBit (7 - i) then palette 1 else palette 0) := by
  obtain ⟨s', hrun, hp, hother, hbits⟩ :=
    update_row_loop_spec vram hv palette ma ra x_count hx x_count 0
      { pix := row, p := 0 } fuel (by omega) hf
  refine ⟨s', hrun, by simpa using hp, ?_, ?_⟩
  · intro j hj
    exact hother j (Or.inr (by simpa using hj))
  · intro x hxlt i hi
    have hpix := hbits x hxlt i hi
    simp only [Nat.zero_add] at hpix
    refine ⟨vram.getD (vram_index ma ra x) 0, vram_read vram hv ma ra x, hpix, ?_⟩
    rw [hpix, BIT_eq_testBit]
    split <;> rfl

/-- Witness for C1: two cells of a video memory filled with 0xA5 drawn with
the monochrome palette; the row gets 16 pixels and starts white, black. -/
theorem update_row_pixels_witness :
    ∃ s', update_row demo_state.m_vram mono_palette 0 0 2 3 blank_row = Except.ok s' ∧
      s'.p = 16 ∧ s'.pix 0 = 0xFFFFFF ∧ s'.pix 1 = 0x000000 ∧ s'.pix 16 = 0 := by
  obtain ⟨s', hrun, hp, hother, hbits⟩ :=
    update_row_pixels demo_state.m_vram mono_palette 0 0 2 3 blank_row
      (List.length_replicate 0x8000 0xA5) (by decide) (by decide)
  obtain ⟨g0, hg0, hpix0, _⟩ := hbits 0 (by decide) 0 (by decide)
  obtain ⟨g1, hg1, hpix1, _⟩ := hbits 0 (by decide) 1 (by decide)
  have hr : demo_state.m_vram[(((0 + 0) * 4 + 0) % 65536) &&& 0x7FFF]? = some 0xA5 := by
    show (List.replicate 0x8000 0xA5)[(((0 + 0) * 4 + 0) % 65536) &&& 0x7FFF]? = some 0xA5
    rw [List.getElem?_replicate]
    decide
  have e0 : g0 = 0xA5 := (Option.some.inj (hr.symm.trans hg0)).symm
  have e1 : g1 = 0xA5 := (Option.some.inj (hr.symm.trans hg1)).symm
  subst e0 e1
  refine ⟨s', hrun, hp, ?_, ?_, hother 16 (by decide)⟩
  · rw [show (0 : Nat) = 8 * 0 + 0 from rfl, hpix0]
    decide
  · rw [show (1 : Nat) = 8 * 0 + 1 from rfl, hpix1]
    decide

/-- C10: for every row base, sub-row and column the index at which
`update_row` reads video memory, `(((ma + x) * 4 + ra) mod 2^16) & 0x7FFF`, is
below 0x8000; with 32 KiB of video memory every such read finds a byte and the
renderer never takes its out-of-range branch. -/
theorem vram_index_in_range (vram : List Nat) (hv : vram.length = 0x8000)
    (palette : Nat → Nat) (ma ra x_count : Nat) :
    (∀ x, x < x_count →
      vram_index ma ra x = (((ma + x) * 4 + ra) % 65536) &&& 0x7FFF ∧
      vram_index ma ra x < 0x8000 ∧
      ∃ gfx, vram[vram_index ma ra x]? = some gfx) ∧
    (∀ fuel x s, update_row_loop vram palette ma ra x_count fuel x s
      ≠ Except.error Fault.vram_out_of_range) ∧
    (∀ fuel row, update_row vram palette ma ra x_count fuel row
      ≠ Except.error Fault.vram_out_of_range) := by
  refine ⟨fun x _ => ⟨rfl, vram_index_lt ma ra x, _, vram_read vram hv ma ra x⟩,
    update_row_loop_no_fault vram hv palette ma ra x_count, ?_⟩
  intro fuel row
  exact update_row_loop_no_fault vram hv palette ma ra x_count fuel 0 _

/-- Witness for C10: the largest row base and sub-row, 255 cells, on a video
memory filled with 0xA5. -/
theorem vram_index_in_range_witness :
    (∀ x, x < 255 →
      vram_index 0xFFFF 0xFF x = (((0xFFFF + x) * 4 + 0xFF) % 65536) &&& 0x7FFF ∧
      vram_index 0xFFFF 0xFF x < 0x8000 ∧
      ∃ gfx, demo_state.m_vram[vram_index 0xFFFF 0xFF x]? = some gfx) ∧
    (∀ fuel row, update_row demo_state.m_vram mono_palette 0xFFFF 0xFF 255 fuel row
      ≠ Except.error Fault.vram_out_of_range) := by
  have h := vram_index_in_range demo_state.m_vram (List.length_replicate 0x8000 0xA5)
    mono_palette 0xFFFF 0xFF 255
  exact ⟨h.1, h.2.2⟩

end MBC200
